import Mathlib

/-!
Verification of the EDINET disclosure notification job (`main.py`).

The development shallowly embeds the decision logic of the job:

* `get_target_codes_from_sheet` — the watchlist filter applied to the raw
  column of spreadsheet cells;
* `parseSubmit` — Python `datetime.strptime(s, "%Y-%m-%d %H:%M")`, modelled
  at the character level after CPython's `_strptime` regex fragments
  (`%Y` = four digits, `%m` = `1[012]|0[1-9]|[1-9]`, `%d` =
  `3[01]|[12]\d|0[1-9]|[1-9]`, a run of whitespace for the literal space,
  `%H` = `2[0-3]|[01]\d|\d`, `%M` = `[0-5]\d|\d`, whole-string match, then
  calendar validation by the `datetime` constructor);
* `selectDoc` / `loopDocs` — the per-record filtering-and-notification loop
  of `check_edinet_and_notify`, with webhook success supplied by an oracle;
* `fetch_edinet_documents` / `check_edinet_and_notify` — the fetch result
  handling and the run-level control flow, with the HTTP exchange abstracted
  into an outcome value.
-/

/-- Python `str` whitespace for the purposes of `strip()` and of the `\s`
regex class, restricted to the ASCII characters that can occur here. -/
def isPySpace (c : Char) : Bool :=
  c = ' ' || c = '\t' || c = '\n' || c = '\r' || c = '\x0b' || c = '\x0c'

/-- Numeric value of a decimal digit character. -/
def dval (c : Char) : Nat := c.toNat - 48

/-- `str.strip()` on the underlying character list. -/
def stripChars (l : List Char) : List Char :=
  ((l.dropWhile isPySpace).reverse.dropWhile isPySpace).reverse

/-- Python `str.strip()`. -/
def pyStrip (s : String) : String := String.mk (stripChars s.data)

/-- Python `str.startswith("E")`: the string is nonempty and its first
character is `E`. -/
def startsE (s : String) : Bool :=
  match s.data with
  | [] => false
  | c :: _ => c = 'E'

/-- A naive local (JST) date-time at minute precision.  Every value the
program compares has `second == 0` and `microsecond == 0` (the parsed
submission times and the 15:45 threshold), so five fields model Python's
`datetime` comparisons exactly. -/
structure DT where
  y : Nat
  mo : Nat
  d : Nat
  h : Nat
  mi : Nat
deriving DecidableEq, Repr

/-- Python `datetime` order (`<=`), lexicographic on the calendar fields. -/
def DT.leb (a b : DT) : Bool :=
  if a.y ≠ b.y then decide (a.y < b.y)
  else if a.mo ≠ b.mo then decide (a.mo < b.mo)
  else if a.d ≠ b.d then decide (a.d < b.d)
  else if a.h ≠ b.h then decide (a.h < b.h)
  else decide (a.mi ≤ b.mi)

/-- `now.replace(hour=15, minute=45, second=0, microsecond=0)`. -/
def threshold (now : DT) : DT := { now with h := 15, mi := 45 }

/-- `is_night_run = now.hour >= 16`. -/
def isNightRun (now : DT) : Bool := decide (16 ≤ now.h)

/-- `%Y`: exactly four decimal digits. -/
def parseY : List Char → Option (Nat × List Char)
  | a :: b :: c :: d :: rest =>
    if a.isDigit && b.isDigit && c.isDigit && d.isDigit then
      some (((dval a * 10 + dval b) * 10 + dval c) * 10 + dval d, rest)
    else none
  | _ => none

/-- A literal character of the format. -/
def expectChar (c : Char) : List Char → Option (List Char)
  | x :: rest => if x = c then some rest else none
  | [] => none

/-- `%m`, the regex `1[012]|0[1-9]|[1-9]` with first-alternative preference. -/
def parseMonth : List Char → Option (Nat × List Char)
  | [] => none
  | [c] => if '1' ≤ c && c ≤ '9' then some (dval c, []) else none
  | a :: b :: rest =>
    if a = '1' then
      if b = '0' || b = '1' || b = '2' then some (10 + dval b, rest)
      else some (1, b :: rest)
    else if a = '0' then
      if '1' ≤ b && b ≤ '9' then some (dval b, rest) else none
    else if '2' ≤ a && a ≤ '9' then some (dval a, b :: rest)
    else none

/-- `%d`, the regex `3[01]|[12]\d|0[1-9]|[1-9]`. -/
def parseDay : List Char → Option (Nat × List Char)
  | [] => none
  | [c] => if '1' ≤ c && c ≤ '9' then some (dval c, []) else none
  | a :: b :: rest =>
    if a = '3' then
      if b = '0' || b = '1' then some (30 + dval b, rest)
      else some (3, b :: rest)
    else if a = '1' || a = '2' then
      if b.isDigit then some (dval a * 10 + dval b, rest)
      else some (dval a, b :: rest)
    else if a = '0' then
      if '1' ≤ b && b ≤ '9' then some (dval b, rest) else none
    else if '4' ≤ a && a ≤ '9' then some (dval a, b :: rest)
    else none

/-- The literal space of the format, which `_strptime` compiles to `\s+`:
one or more whitespace characters, matched greedily. -/
def skipWs1 : List Char → Option (List Char)
  | c :: rest => if isPySpace c then some (rest.dropWhile isPySpace) else none
  | [] => none

/-- `%H`, the regex `2[0-3]|[01]\d|\d`. -/
def parseHour : List Char → Option (Nat × List Char)
  | [] => none
  | [c] => if c.isDigit then some (dval c, []) else none
  | a :: b :: rest =>
    if a = '2' then
      if '0' ≤ b && b ≤ '3' then some (20 + dval b, rest)
      else some (2, b :: rest)
    else if a = '0' || a = '1' then
      if b.isDigit then some (dval a * 10 + dval b, rest)
      else some (dval a, b :: rest)
    else if '3' ≤ a && a ≤ '9' then some (dval a, b :: rest)
    else none

/-- `%M`, the regex `[0-5]\d|\d`. -/
def parseMin : List Char → Option (Nat × List Char)
  | [] => none
  | [c] => if c.isDigit then some (dval c, []) else none
  | a :: b :: rest =>
    if ('0' ≤ a && a ≤ '5') && b.isDigit then some (dval a * 10 + dval b, rest)
    else if a.isDigit then some (dval a, b :: rest)
    else none

/-- The whole format regex for `"%Y-%m-%d %H:%M"`, returning the parsed
fields and the unconsumed suffix of the input. -/
def parseCore (l : List Char) : Option (DT × List Char) :=
  match parseY l with
  | none => none
  | some (y, r1) =>
    match expectChar '-' r1 with
    | none => none
    | some r2 =>
      match parseMonth r2 with
      | none => none
      | some (mo, r3) =>
        match expectChar '-' r3 with
        | none => none
        | some r4 =>
          match parseDay r4 with
          | none => none
          | some (d, r5) =>
            match skipWs1 r5 with
            | none => none
            | some r6 =>
              match parseHour r6 with
              | none => none
              | some (h, r7) =>
                match expectChar ':' r7 with
                | none => none
                | some r8 =>
                  match parseMin r8 with
                  | none => none
                  | some (mi, r9) => some (⟨y, mo, d, h, mi⟩, r9)

/-- Gregorian leap year, as in Python's `calendar` rules used by
`datetime`. -/
def isLeap (y : Nat) : Bool := (y % 4 = 0 && y % 100 ≠ 0) || y % 400 = 0

/-- Length of a month, used by the `datetime` constructor's validation. -/
def daysInMonth (y mo : Nat) : Nat :=
  if mo = 2 then (if isLeap y then 29 else 28)
  else if mo = 4 || mo = 6 || mo = 9 || mo = 11 then 30
  else 31

/-- `datetime.datetime.strptime(s, "%Y-%m-%d %H:%M")`, returning `none`
exactly when Python raises `ValueError`: the regex must match, no
unconverted data may remain, and the `datetime` constructor must accept
the fields (`MINYEAR <= year`, day within the month). -/
def parseSubmit (s : String) : Option DT :=
  match parseCore s.data with
  | some (t, []) => if 1 ≤ t.y && t.d ≤ daysInMonth t.y t.mo then some t else none
  | _ => none

example : parseSubmit "2025-10-12 15:45" = some ⟨2025, 10, 12, 15, 45⟩ := by decide
example : parseSubmit "2025-10-12 15:45:01" = none := by decide
example : parseSubmit "2025-2-3 5:4" = some ⟨2025, 2, 3, 5, 4⟩ := by decide
example : parseSubmit "2025-02-30 10:00" = none := by decide
example : parseSubmit "" = none := by decide
example : parseSubmit "2025-13-01 10:00" = none := by decide

/-- One record of the EDINET `results` array.  Each field models
`doc.get(key)`: `none` when the key is absent. -/
structure Doc where
  edinetCode : Option String
  submitDateTime : Option String
  docDescription : Option String
  filerName : Option String
  docID : Option String
deriving DecidableEq, Repr

/-- The per-record decision of the loop body of `check_edinet_and_notify`:
`true` exactly when the record reaches the `if should_notify:` branch.
Mirrors, in order: the `edinet_code in target_codes_set` test, the
`if not submit_str: continue` guard (absent key or empty string), the
`strptime`/`ValueError` guard, and the night-run threshold comparison
`is_night_run and submit_dt <= threshold_time`. -/
def selectDoc (now : DT) (targets : List String) (doc : Doc) : Bool :=
  match doc.edinetCode with
  | none => false
  | some c =>
    if targets.contains c then
      match doc.submitDateTime with
      | none => false
      | some s =>
        if s = "" then false
        else
          match parseSubmit s with
          | none => false
          | some dt => !(isNightRun now && DT.leb dt (threshold now))
    else false

/-- The Slack message text built for a notified record, including the
`dict.get` default values for the optional fields. -/
def recordMsg (doc : Doc) : String :=
  let s := doc.submitDateTime.getD ""
  let title := doc.docDescription.getD "不明な書類"
  let filer := doc.filerName.getD "不明な企業"
  let docId := doc.docID.getD ""
  "📢 *開示情報 (" ++ s ++ ")*\n*企業名*: " ++ filer ++ "\n*書類*: " ++ title ++
    "\n*PDF*: https://disclosure.edinet-fsa.go.jp/api/v2/documents/" ++ docId ++ "?type=2"

/-- One outbound webhook POST of a run: a per-record notification or the
end-of-run summary. -/
inductive Call where
  | record (text : String)
  | summary (text : String)
deriving DecidableEq, Repr

/-- The record loop of `check_edinet_and_notify`.  `ok i` is the success of
the `i`-th per-record `notify_slack` POST (POSTs are counted in call order);
`idx` is the number of POSTs already made and `succ` the value of
`notification_count` so far.  Returns the per-record calls issued by the
rest of the loop together with the final `notification_count`. -/
def loopDocs (now : DT) (targets : List String) (ok : Nat → Bool) :
    List Doc → Nat → Nat → List Call × Nat
  | [], _, succ => ([], succ)
  | doc :: ds, idx, succ =>
    if selectDoc now targets doc then
      let rest := loopDocs now targets ok ds (idx + 1)
        (succ + (if ok idx then 1 else 0))
      (Call.record (recordMsg doc) :: rest.1, rest.2)
    else loopDocs now targets ok ds idx succ

/-- The per-record calls of a run, as a function of the selected records
only. -/
def recordCallList (now : DT) (targets : List String) (docs : List Doc) : List Call :=
  (docs.filter (selectDoc now targets)).map (fun d => Call.record (recordMsg d))

/-- Zero-pad to two digits, as `strftime` `%m`/`%d` do. -/
def pad2 (n : Nat) : String :=
  if n < 10 then "0" ++ toString n else toString n

/-- Zero-pad to four digits, as `strftime` `%Y` does for the years in
range. -/
def pad4 (n : Nat) : String :=
  if n < 10 then "000" ++ toString n
  else if n < 100 then "00" ++ toString n
  else if n < 1000 then "0" ++ toString n
  else toString n

/-- `now.strftime("%Y-%m-%d")`. -/
def todayStr (now : DT) : String :=
  pad4 now.y ++ "-" ++ pad2 now.mo ++ "-" ++ pad2 now.d

/-- The text of the zero-notification summary message. -/
def summaryText (now : DT) (targets : List String) : String :=
  let timeLabel := if isNightRun now then "夜間チェック" else "日中チェック"
  "✅ *開示なし (" ++ todayStr now ++ " " ++ timeLabel ++ ")*\n監視対象(" ++
    toString targets.dedup.length ++ "社)について、新規の開示はありませんでした。"

/-- The full sequence of webhook POSTs of the record phase: the per-record
calls, followed by the summary call exactly when `notification_count`
ended at zero. -/
def runCalls (now : DT) (targets : List String) (ok : Nat → Bool)
    (docs : List Doc) : List Call :=
  let st := loopDocs now targets ok docs 0 0
  st.1 ++ (if st.2 = 0 then [Call.summary (summaryText now targets)] else [])

/-- The watchlist filter of `get_target_codes_from_sheet` applied to the
raw values of column A:
`[str(c).strip() for c in codes if c and str(c).strip().startswith('E')]`. -/
def get_target_codes_from_sheet (codes : List String) : List String :=
  (codes.filter (fun c => !(c = "" : Bool) && startsE (pyStrip c))).map pyStrip

/-- The outcome of the spreadsheet read: `none` when `gspread` raised (the
function logs and returns `[]`), otherwise the raw cell values of
column A. -/
def get_target_codes (sheetOutcome : Option (List String)) : List String :=
  match sheetOutcome with
  | none => []
  | some cells => get_target_codes_from_sheet cells

/-- The outcome of the HTTP GET against the documents endpoint.
`response status body` carries the final status code and, when the body
was read, its JSON decode result: `none` for a `json.JSONDecodeError`,
`some none` for valid JSON whose `results` field is absent or null, and
`some (some l)` for a `results` array `l`. -/
inductive HttpOutcome where
  | networkError
  | response (status : Nat) (body : Option (Option (List Doc)))
deriving DecidableEq

/-- `fetch_edinet_documents`: `None` (here `none`) on a network-level
`RequestException`, on any status other than 200, or on a JSON decode
failure; an absent or null `results` field of a 200 response is the empty
list. -/
def fetch_edinet_documents : HttpOutcome → Option (List Doc)
  | HttpOutcome.networkError => none
  | HttpOutcome.response status body =>
    if status ≠ 200 then none
    else
      match body with
      | none => none
      | some none => some []
      | some (some l) => some l

/-- Python truthiness of `os.environ.get(...)`: present and nonempty. -/
def truthy : Option String → Bool
  | none => false
  | some s => !(s = "" : Bool)

/-- Status code and webhook POSTs of one run. -/
structure RunOutcome where
  status : Nat
  calls : List Call
deriving DecidableEq, Repr

/-- The run-level control flow of `check_edinet_and_notify`: the config
check, the abort on an empty target list, the abort on a fetch failure,
then the record phase.  `sheetOutcome` and `httpOutcome` abstract the two
inbound HTTP exchanges; `ok` the per-record webhook successes. -/
def check_edinet_and_notify (sheet_id webhook_url : Option String)
    (sheetOutcome : Option (List String)) (now : DT)
    (httpOutcome : HttpOutcome) (ok : Nat → Bool) : RunOutcome :=
  if !(truthy sheet_id && truthy webhook_url) then ⟨500, []⟩
  else
    let codes := get_target_codes sheetOutcome
    if codes = [] then ⟨500, []⟩
    else
      match fetch_edinet_documents httpOutcome with
      | none => ⟨500, []⟩
      | some results => ⟨200, runCalls now codes ok results⟩

/-- A record the loop does not select contributes nothing: no call, no
index or count change. -/
theorem loopDocs_cons_skip (now : DT) (targets : List String) (ok : Nat → Bool)
    (doc : Doc) (ds : List Doc) (idx succ : Nat)
    (h : selectDoc now targets doc = false) :
    loopDocs now targets ok (doc :: ds) idx succ =
      loopDocs now targets ok ds idx succ := by
  simp [loopDocs, h]

/-- The calls issued by the loop are exactly one `Call.record` per selected
record, in input order, independent of the webhook outcomes. -/
theorem loopDocs_fst (now : DT) (targets : List String) (ok : Nat → Bool) :
    ∀ (ds : List Doc) (idx succ : Nat),
      (loopDocs now targets ok ds idx succ).1 = recordCallList now targets ds := by
  intro ds
  induction ds with
  | nil => intro idx succ; simp [loopDocs, recordCallList]
  | cons d ds ih =>
    intro idx succ
    by_cases h : selectDoc now targets d
    · simp [loopDocs, h, recordCallList, List.filter_cons, ih]
    · simp [loopDocs, h, recordCallList, List.filter_cons, ih]

/-- When every webhook POST fails, `notification_count` never moves. -/
theorem loopDocs_snd_allfalse (now : DT) (targets : List String) (ok : Nat → Bool)
    (hok : ∀ i, ok i = false) :
    ∀ (ds : List Doc) (idx succ : Nat),
      (loopDocs now targets ok ds idx succ).2 = succ := by
  intro ds
  induction ds with
  | nil => intro idx succ; simp [loopDocs]
  | cons d ds ih =>
    intro idx succ
    by_cases h : selectDoc now targets d
    · simp [loopDocs, h, hok, ih]
    · simp [loopDocs, h, ih]

/-- A loop over a batch with no selected record issues no call and leaves
the count unchanged. -/
theorem loopDocs_of_filter_nil (now : DT) (targets : List String) (ok : Nat → Bool) :
    ∀ (ds : List Doc) (idx succ : Nat),
      ds.filter (selectDoc now targets) = [] →
      loopDocs now targets ok ds idx succ = ([], succ) := by
  intro ds
  induction ds with
  | nil => intro idx succ _; simp [loopDocs]
  | cons d ds ih =>
    intro idx succ h
    rw [List.filter_cons] at h
    by_cases hd : selectDoc now targets d = true
    · rw [if_pos hd] at h
      exact absurd h (by simp)
    · have hd' : selectDoc now targets d = false := by simpa using hd
      rw [if_neg hd] at h
      rw [loopDocs_cons_skip now targets ok d ds idx succ hd']
      exact ih idx succ h

/-- Per-record calls distribute over batch concatenation. -/
theorem recordCallList_append (now : DT) (targets : List String)
    (l1 l2 : List Doc) :
    recordCallList now targets (l1 ++ l2) =
      recordCallList now targets l1 ++ recordCallList now targets l2 := by
  simp [recordCallList, List.filter_append]

/-- Evaluation of the per-record decision once the guards are known: a
matched record with a parsed timestamp is selected unless the night-run
threshold test rejects it. -/
theorem selectDoc_eval (now : DT) (targets : List String) (doc : Doc)
    (c s : String) (dt : DT)
    (hc : doc.edinetCode = some c) (hm : targets.contains c = true)
    (hs : doc.submitDateTime = some s) (hp : parseSubmit s = some dt) :
    selectDoc now targets doc = !(isNightRun now && DT.leb dt (threshold now)) := by
  have hne : ¬(s = "") := by
    intro h
    have h0 : parseSubmit "" = none := by decide
    rw [h, h0] at hp
    exact absurd hp (by simp)
  have hm2 : c ∈ targets := by simpa using hm
  simp [selectDoc, hc, hm, hm2, hs, hne, hp]

/-- A successful `%Y` parse is unchanged by extending the input. -/
theorem parseY_append (l u r : List Char) (v : Nat)
    (h : parseY l = some (v, r)) : parseY (l ++ u) = some (v, r ++ u) := by
  match l with
  | [] => exact absurd h (by simp [parseY])
  | [a] => exact absurd h (by simp [parseY])
  | [a, b] => exact absurd h (by simp [parseY])
  | [a, b, c] => exact absurd h (by simp [parseY])
  | a :: b :: c :: d :: rest =>
    simp only [parseY, List.cons_append] at h ⊢
    split_ifs at h ⊢ <;> simp_all

/-- A matched literal pins down the head of the input. -/
theorem expectChar_shape (c : Char) (l r : List Char)
    (h : expectChar c l = some r) : l = c :: r := by
  match l with
  | [] => exact absurd h (by simp [expectChar])
  | x :: rest =>
    simp only [expectChar] at h
    split_ifs at h <;> simp_all

/-- A successful literal match is unchanged by extending the input. -/
theorem expectChar_append (c : Char) (l u r : List Char)
    (h : expectChar c l = some r) : expectChar c (l ++ u) = some (r ++ u) := by
  rw [expectChar_shape c l r h]
  simp [expectChar]

/-- A successful `%m` parse with a nonempty remainder is unchanged by
extending the input. -/
theorem parseMonth_append (l u r : List Char) (v : Nat) (c : Char)
    (h : parseMonth l = some (v, c :: r)) :
    parseMonth (l ++ u) = some (v, c :: (r ++ u)) := by
  match l with
  | [] => exact absurd h (by simp [parseMonth])
  | [a] =>
    simp only [parseMonth] at h
    split_ifs at h <;> simp_all
  | a :: b :: rest =>
    simp only [parseMonth, List.cons_append] at h ⊢
    split_ifs at h ⊢ <;> simp_all

/-- A successful `%d` parse with a nonempty remainder is unchanged by
extending the input. -/
theorem parseDay_append (l u r : List Char) (v : Nat) (c : Char)
    (h : parseDay l = some (v, c :: r)) :
    parseDay (l ++ u) = some (v, c :: (r ++ u)) := by
  match l with
  | [] => exact absurd h (by simp [parseDay])
  | [a] =>
    simp only [parseDay] at h
    split_ifs at h <;> simp_all
  | a :: b :: rest =>
    simp only [parseDay, List.cons_append] at h ⊢
    split_ifs at h ⊢ <;> simp_all

/-- A successful `%H` parse with a nonempty remainder is unchanged by
extending the input. -/
theorem parseHour_append (l u r : List Char) (v : Nat) (c : Char)
    (h : parseHour l = some (v, c :: r)) :
    parseHour (l ++ u) = some (v, c :: (r ++ u)) := by
  match l with
  | [] => exact absurd h (by simp [parseHour])
  | [a] =>
    simp only [parseHour] at h
    split_ifs at h <;> simp_all
  | a :: b :: rest =>
    simp only [parseHour, List.cons_append] at h ⊢
    split_ifs at h ⊢ <;> simp_all

/-- `dropWhile` with a nonempty result is unchanged by extending the
input. -/
theorem dropWhile_append_cons (p : Char → Bool) (l u r : List Char) (c : Char)
    (h : l.dropWhile p = c :: r) :
    (l ++ u).dropWhile p = c :: (r ++ u) := by
  induction l with
  | nil => exact absurd h (by simp)
  | cons x xs ih =>
    by_cases hx : p x = true
    · rw [List.dropWhile_cons_of_pos hx] at h
      rw [List.cons_append, List.dropWhile_cons_of_pos hx]
      exact ih h
    · rw [List.dropWhile_cons_of_neg hx] at h
      rw [List.cons_append, List.dropWhile_cons_of_neg hx]
      simp_all

/-- A successful whitespace run with a nonempty remainder is unchanged by
extending the input. -/
theorem skipWs1_append (l u r : List Char) (c : Char)
    (h : skipWs1 l = some (c :: r)) :
    skipWs1 (l ++ u) = some (c :: (r ++ u)) := by
  match l with
  | [] => exact absurd h (by simp [skipWs1])
  | x :: rest =>
    simp only [skipWs1] at h
    split_ifs at h with hx
    have h2 : rest.dropWhile isPySpace = c :: r := by simpa using h
    simp only [List.cons_append, skipWs1, if_pos hx]
    rw [dropWhile_append_cons isPySpace rest u r c h2]

/-- A complete `%M` parse, extended with a non-digit character, re-parses
to the same value with the extension as the remainder. -/
theorem parseMin_append_nondigit (l u : List Char) (v : Nat) (c : Char)
    (hc : c.isDigit = false) (h : parseMin l = some (v, [])) :
    parseMin (l ++ c :: u) = some (v, c :: u) := by
  match l with
  | [] => exact absurd h (by simp [parseMin])
  | [a] =>
    simp only [parseMin, List.cons_append, List.nil_append] at h ⊢
    split_ifs at h ⊢ <;> simp_all
  | a :: b :: rest =>
    simp only [parseMin, List.cons_append] at h ⊢
    split_ifs at h ⊢ <;> simp_all

/-- A string fully matched by the `"%Y-%m-%d %H:%M"` regex, extended with a
`:`-separated suffix, still matches the regex, but with the whole suffix
left unconverted. -/
theorem parseCore_colon_append (l t : List Char) (p : DT)
    (h : parseCore l = some (p, [])) :
    parseCore (l ++ ':' :: t) = some (p, ':' :: t) := by
  unfold parseCore at h
  cases hy : parseY l with
  | none => rw [hy] at h; exact absurd h (by simp)
  | some a₁ =>
  obtain ⟨y, r1⟩ := a₁
  rw [hy] at h
  dsimp only at h
  cases h2 : expectChar '-' r1 with
  | none => rw [h2] at h; exact absurd h (by simp)
  | some r2 =>
  rw [h2] at h
  dsimp only at h
  cases h3 : parseMonth r2 with
  | none => rw [h3] at h; exact absurd h (by simp)
  | some a₂ =>
  obtain ⟨mo, r3⟩ := a₂
  rw [h3] at h
  dsimp only at h
  cases h4 : expectChar '-' r3 with
  | none => rw [h4] at h; exact absurd h (by simp)
  | some r4 =>
  rw [h4] at h
  dsimp only at h
  cases h5 : parseDay r4 with
  | none => rw [h5] at h; exact absurd h (by simp)
  | some a₃ =>
  obtain ⟨d, r5⟩ := a₃
  rw [h5] at h
  dsimp only at h
  cases h6 : skipWs1 r5 with
  | none => rw [h6] at h; exact absurd h (by simp)
  | some r6 =>
  rw [h6] at h
  dsimp only at h
  cases h7 : parseHour r6 with
  | none => rw [h7] at h; exact absurd h (by simp)
  | some a₄ =>
  obtain ⟨hh, r7⟩ := a₄
  rw [h7] at h
  dsimp only at h
  cases h8 : expectChar ':' r7 with
  | none => rw [h8] at h; exact absurd h (by simp)
  | some r8 =>
  rw [h8] at h
  dsimp only at h
  cases h9 : parseMin r8 with
  | none => rw [h9] at h; exact absurd h (by simp)
  | some a₅ =>
  obtain ⟨mi, r9⟩ := a₅
  rw [h9] at h
  dsimp only at h
  have hav : (⟨y, mo, d, hh, mi⟩ : DT) = p ∧ r9 = [] := by simpa using h
  obtain ⟨hpv, hr9⟩ := hav
  subst hr9
  -- shapes of the intermediate remainders, which are all nonempty
  have s2 : r1 = '-' :: r2 := expectChar_shape '-' r1 r2 h2
  have s4 : r3 = '-' :: r4 := expectChar_shape '-' r3 r4 h4
  have s8 : r7 = ':' :: r8 := expectChar_shape ':' r7 r8 h8
  obtain ⟨c6, r6t, hr6⟩ : ∃ c r, r6 = c :: r := by
    cases r6 with
    | nil => exact absurd h7 (by simp [parseHour])
    | cons c r => exact ⟨c, r, rfl⟩
  obtain ⟨c5, r5t, hr5⟩ : ∃ c r, r5 = c :: r := by
    cases r5 with
    | nil => exact absurd h6 (by simp [skipWs1])
    | cons c r => exact ⟨c, r, rfl⟩
  -- re-run the chain on the extended input
  have g1 := parseY_append l (':' :: t) r1 y hy
  rw [s2] at g1
  have g2 : expectChar '-' (('-' :: r2) ++ ':' :: t) = some (r2 ++ ':' :: t) := by
    simp [expectChar]
  have g3 : parseMonth (r2 ++ ':' :: t) = some (mo, '-' :: (r4 ++ ':' :: t)) := by
    rw [s4] at h3
    exact parseMonth_append r2 (':' :: t) r4 mo '-' h3
  have g4 : expectChar '-' ('-' :: (r4 ++ ':' :: t)) = some (r4 ++ ':' :: t) := by
    simp [expectChar]
  have g5 : parseDay (r4 ++ ':' :: t) = some (d, c5 :: (r5t ++ ':' :: t)) := by
    rw [hr5] at h5
    exact parseDay_append r4 (':' :: t) r5t d c5 h5
  have g6 : skipWs1 ((c5 :: r5t) ++ ':' :: t) = some (c6 :: (r6t ++ ':' :: t)) := by
    rw [hr5, hr6] at h6
    have := skipWs1_append (c5 :: r5t) (':' :: t) r6t c6 h6
    simpa using this
  have g7 : parseHour (c6 :: (r6t ++ ':' :: t)) = some (hh, ':' :: (r8 ++ ':' :: t)) := by
    rw [hr6, s8] at h7
    have := parseHour_append (c6 :: r6t) (':' :: t) r8 hh ':' h7
    simpa using this
  have g8 : expectChar ':' (':' :: (r8 ++ ':' :: t)) = some (r8 ++ ':' :: t) := by
    simp [expectChar]
  have g9 : parseMin (r8 ++ ':' :: t) = some (mi, ':' :: t) := by
    exact parseMin_append_nondigit r8 t mi ':' (by decide) h9
  simp only [List.cons_append] at g1 g2 g6
  simp only [parseCore, g1, g2, g3, g4, g5, g6, g7, g8, g9, hpv]

/-- A parseable timestamp extended with a `:`-separated suffix (such as a
seconds component) no longer parses: the regex leaves unconverted data. -/
theorem parseSubmit_colon_none (s t : String)
    (h : (parseSubmit s).isSome = true) :
    parseSubmit (s ++ ":" ++ t) = none := by
  have hcore : ∃ p, parseCore s.data = some (p, []) := by
    unfold parseSubmit at h
    cases hc : parseCore s.data with
    | none => rw [hc] at h; exact absurd h (by simp)
    | some a =>
      obtain ⟨p, r⟩ := a
      cases r with
      | nil => exact ⟨p, rfl⟩
      | cons x xs => rw [hc] at h; exact absurd h (by simp)
  obtain ⟨p, hcore⟩ := hcore
  have hdata : (s ++ ":" ++ t).data = s.data ++ ':' :: t.data := by
    rw [String.data_append, String.data_append]
    simp
  unfold parseSubmit
  rw [hdata, parseCore_colon_append s.data t.data p hcore]

/-- A record whose timestamp is absent, empty, or unparseable is never
selected, whatever the issuer code. -/
theorem selectDoc_false_of_bad_ts (now : DT) (targets : List String) (doc : Doc)
    (h : doc.submitDateTime = none ∨
      ∃ s, doc.submitDateTime = some s ∧ (s = "" ∨ parseSubmit s = none)) :
    selectDoc now targets doc = false := by
  cases hce : doc.edinetCode with
  | none => simp [selectDoc, hce]
  | some c =>
    rcases h with h | ⟨s, hs, h⟩
    · simp [selectDoc, hce, h]
    · by_cases hse : s = ""
      · simp [selectDoc, hce, hs, hse]
      · rcases h with h | h
        · exact absurd h hse
        · simp [selectDoc, hce, hs, hse, h]

/-- The spec's description of the target list resolver: keep the values
that, once stripped, begin with `E`, each in stripped form, in order,
duplicates allowed. -/
def targetCodesSpec (codes : List String) : List String :=
  codes.filterMap (fun c => if startsE (pyStrip c) then some (pyStrip c) else none)

/-- C7: the target list resolver returns exactly the stripped cell values
beginning with `E`, in their original order, duplicates preserved — the
source's extra guard on falsy (empty) cells is redundant, since an empty
cell cannot begin with `E` after stripping. -/
theorem target_codes_match_spec (codes : List String) :
    get_target_codes_from_sheet codes = targetCodesSpec codes := by
  induction codes with
  | nil => rfl
  | cons c cs ih =>
    by_cases hP : startsE (pyStrip c) = true
    · have hc : ¬(c = "") := by
        intro he
        rw [he] at hP
        exact absurd hP (by decide)
      simp [get_target_codes_from_sheet, targetCodesSpec, List.filter_cons,
        List.filterMap_cons, hP, hc] at ih ⊢
      exact ih
    · by_cases hce : c = ""
      · simp [get_target_codes_from_sheet, targetCodesSpec, List.filter_cons,
          List.filterMap_cons, hP, hce] at ih ⊢
        exact ih
      · simp [get_target_codes_from_sheet, targetCodesSpec, List.filter_cons,
          List.filterMap_cons, hP, hce] at ih ⊢
        exact ih

/-- C2: on a daytime run (hour before 16), every record whose issuer code
is in the target set and whose timestamp is present and parses is
selected, whatever the time of day of that timestamp. -/
theorem day_run_selects_all_matched (now : DT) (targets : List String)
    (doc : Doc) (c s : String) (dt : DT)
    (hn : now.h < 16)
    (hc : doc.edinetCode = some c) (hm : targets.contains c = true)
    (hs : doc.submitDateTime = some s) (hp : parseSubmit s = some dt) :
    selectDoc now targets doc = true := by
  rw [selectDoc_eval now targets doc c s dt hc hm hs hp]
  have hday : isNightRun now = false := by
    simp only [isNightRun, decide_eq_false_iff_not]
    omega
  simp [hday]

/-- C2 witness: the spec's first scenario, `now` 14:00 and a matched record
timestamped 13:00. -/
theorem day_run_selects_all_matched_witness :
    selectDoc ⟨2025, 10, 12, 14, 0⟩ ["E001"]
      ⟨some "E001", some "2025-10-12 13:00", none, none, some "D1"⟩ = true :=
  day_run_selects_all_matched ⟨2025, 10, 12, 14, 0⟩ ["E001"]
    ⟨some "E001", some "2025-10-12 13:00", none, none, some "D1"⟩
    "E001" "2025-10-12 13:00" ⟨2025, 10, 12, 13, 0⟩
    (by decide) rfl (by decide) rfl (by decide)

/-- C3: a record whose issuer code is absent from the target set (or has
no issuer code at all) is never selected, and contributes no per-record
notification, whatever its timestamp and whatever the run type. -/
theorem unmatched_code_never_selected (now : DT) (targets : List String)
    (doc : Doc)
    (h : ∀ c, doc.edinetCode = some c → targets.contains c = false) :
    selectDoc now targets doc = false ∧
    ∀ pre post, recordCallList now targets (pre ++ doc :: post) =
      recordCallList now targets pre ++ recordCallList now targets post := by
  have hsel : selectDoc now targets doc = false := by
    cases hce : doc.edinetCode with
    | none => simp [selectDoc, hce]
    | some c =>
      have hnm : ¬(c ∈ targets) := by simpa using h c hce
      simp [selectDoc, hce, h c hce, hnm]
  refine ⟨hsel, fun pre post => ?_⟩
  rw [recordCallList_append]
  have : recordCallList now targets (doc :: post) = recordCallList now targets post := by
    simp [recordCallList, List.filter_cons, hsel]
  rw [this]

/-- C3 witness: a night-run batch in which the record's code `E002` is not
watched. -/
theorem unmatched_code_never_selected_witness :
    selectDoc ⟨2025, 10, 12, 17, 0⟩ ["E001"]
      ⟨some "E002", some "2025-10-12 16:30", none, none, none⟩ = false ∧
    recordCallList ⟨2025, 10, 12, 17, 0⟩ ["E001"]
      ([] ++ ⟨some "E002", some "2025-10-12 16:30", none, none, none⟩ :: []) =
      recordCallList ⟨2025, 10, 12, 17, 0⟩ ["E001"] [] ++
        recordCallList ⟨2025, 10, 12, 17, 0⟩ ["E001"] [] := by
  have h := unmatched_code_never_selected ⟨2025, 10, 12, 17, 0⟩ ["E001"]
    ⟨some "E002", some "2025-10-12 16:30", none, none, none⟩
    (by intro c hc; cases hc; decide)
  exact ⟨h.1, h.2 [] []⟩

/-- C6: a record whose timestamp is missing (or empty, which the code
treats as missing) or fails to parse is skipped — it is never selected,
and the loop over the remaining records proceeds exactly as if the record
were absent; no exception escapes, since the decision is total. -/
theorem malformed_timestamp_skipped (now : DT) (targets : List String)
    (doc : Doc)
    (h : doc.submitDateTime = none ∨
      ∃ s, doc.submitDateTime = some s ∧ (s = "" ∨ parseSubmit s = none)) :
    selectDoc now targets doc = false ∧
    ∀ ok ds idx succ, loopDocs now targets ok (doc :: ds) idx succ =
      loopDocs now targets ok ds idx succ := by
  have hsel := selectDoc_false_of_bad_ts now targets doc h
  exact ⟨hsel, fun ok ds idx succ =>
    loopDocs_cons_skip now targets ok doc ds idx succ hsel⟩

/-- C6 witness: a matched record with garbage in its timestamp is skipped
and the loop still processes the following valid record. -/
theorem malformed_timestamp_skipped_witness :
    selectDoc ⟨2025, 10, 12, 14, 0⟩ ["E001"]
      ⟨some "E001", some "garbage", none, none, none⟩ = false ∧
    loopDocs ⟨2025, 10, 12, 14, 0⟩ ["E001"] (fun _ => true)
      [⟨some "E001", some "garbage", none, none, none⟩,
       ⟨some "E001", some "2025-10-12 13:00", none, none, none⟩] 0 0 =
    loopDocs ⟨2025, 10, 12, 14, 0⟩ ["E001"] (fun _ => true)
      [⟨some "E001", some "2025-10-12 13:00", none, none, none⟩] 0 0 := by
  have h := malformed_timestamp_skipped ⟨2025, 10, 12, 14, 0⟩ ["E001"]
    ⟨some "E001", some "garbage", none, none, none⟩
    (Or.inr ⟨"garbage", rfl, Or.inr (by decide)⟩)
  exact ⟨h.1, h.2 (fun _ => true)
    [⟨some "E001", some "2025-10-12 13:00", none, none, none⟩] 0 0⟩

/-- C1 counterexample: on a night run (hour 17), a matched record whose
timestamp reads one second after the 15:45:00 threshold is NOT selected,
contrary to the claim — the string `2025-10-12 15:45:01` carries a seconds
component, so `strptime` with the minute-precision format rejects it and
the record is skipped as malformed. -/
theorem night_one_second_after_not_selected_cex :
    parseSubmit "2025-10-12 15:45:01" = none ∧
    isNightRun ⟨2025, 10, 12, 17, 0⟩ = true ∧
    selectDoc ⟨2025, 10, 12, 17, 0⟩ ["E001"]
      ⟨some "E001", some "2025-10-12 15:45:01", none, none, none⟩ = false := by
  decide

/-- C1 amended: on a night run, a matched record whose timestamp parses is
selected iff the parsed timestamp is strictly after 15:45:00 of `now`'s
calendar date; in particular a record timestamped exactly 15:45 is not
selected and one timestamped 15:46 — the smallest representable step, the
format having minute precision — is selected, while a string carrying a
seconds component (such as 15:45:01) fails to parse and is skipped. -/
theorem night_run_selects_iff_after_threshold (now : DT) (targets : List String)
    (doc : Doc) (c s : String) (dt : DT)
    (hn : 16 ≤ now.h)
    (hc : doc.edinetCode = some c) (hm : targets.contains c = true)
    (hs : doc.submitDateTime = some s) (hp : parseSubmit s = some dt) :
    selectDoc now targets doc = true ↔ DT.leb dt (threshold now) = false := by
  rw [selectDoc_eval now targets doc c s dt hc hm hs hp]
  have hnight : isNightRun now = true := by
    simp only [isNightRun, decide_eq_true_eq]
    omega
  simp [hnight]

/-- C1 witness: at `now` 17:00, the record timestamped 16:00 is selected
and the record timestamped exactly 15:45 is not (the spec's second
scenario). -/
theorem night_run_selects_iff_after_threshold_witness :
    selectDoc ⟨2025, 10, 12, 17, 0⟩ ["E001"]
      ⟨some "E001", some "2025-10-12 16:00", none, none, none⟩ = true ∧
    selectDoc ⟨2025, 10, 12, 17, 0⟩ ["E001"]
      ⟨some "E001", some "2025-10-12 15:45", none, none, none⟩ = false := by
  constructor
  · exact (night_run_selects_iff_after_threshold ⟨2025, 10, 12, 17, 0⟩ ["E001"]
      ⟨some "E001", some "2025-10-12 16:00", none, none, none⟩
      "E001" "2025-10-12 16:00" ⟨2025, 10, 12, 16, 0⟩
      (by decide) rfl (by decide) rfl (by decide)).mpr (by decide)
  · have h := night_run_selects_iff_after_threshold ⟨2025, 10, 12, 17, 0⟩ ["E001"]
      ⟨some "E001", some "2025-10-12 15:45", none, none, none⟩
      "E001" "2025-10-12 15:45" ⟨2025, 10, 12, 15, 45⟩
      (by decide) rfl (by decide) rfl (by decide)
    exact Bool.eq_false_iff.mpr (fun hx => absurd (h.mp hx) (by decide))

/-- C8: a timestamp string made of a minute-precision timestamp that
parses, extended with a `:`-separated seconds component, fails to parse,
and a record carrying it is skipped — never selected, and transparent to
the processing of the rest of the batch. -/
theorem seconds_component_fails_parse (s t : String) (now : DT)
    (targets : List String) (doc : Doc)
    (h : (parseSubmit s).isSome = true)
    (hts : doc.submitDateTime = some (s ++ ":" ++ t)) :
    parseSubmit (s ++ ":" ++ t) = none ∧
    selectDoc now targets doc = false ∧
    ∀ ok ds idx succ, loopDocs now targets ok (doc :: ds) idx succ =
      loopDocs now targets ok ds idx succ := by
  have hn := parseSubmit_colon_none s t h
  have hsel := selectDoc_false_of_bad_ts now targets doc
    (Or.inr ⟨s ++ ":" ++ t, hts, Or.inr hn⟩)
  exact ⟨hn, hsel, fun ok ds idx succ =>
    loopDocs_cons_skip now targets ok doc ds idx succ hsel⟩

/-- C8 witness: `2025-10-12 15:45` parses, `2025-10-12 15:45:01` does not,
and the record carrying the latter is skipped. -/
theorem seconds_component_fails_parse_witness :
    parseSubmit ("2025-10-12 15:45" ++ ":" ++ "01") = none ∧
    selectDoc ⟨2025, 10, 12, 17, 0⟩ ["E001"]
      ⟨some "E001", some ("2025-10-12 15:45" ++ ":" ++ "01"), none, none, none⟩ = false ∧
    ∀ ok ds idx succ,
      loopDocs ⟨2025, 10, 12, 17, 0⟩ ["E001"] ok
        (⟨some "E001", some ("2025-10-12 15:45" ++ ":" ++ "01"), none, none, none⟩ :: ds)
        idx succ =
      loopDocs ⟨2025, 10, 12, 17, 0⟩ ["E001"] ok ds idx succ :=
  seconds_component_fails_parse "2025-10-12 15:45" "01" ⟨2025, 10, 12, 17, 0⟩
    ["E001"] ⟨some "E001", some ("2025-10-12 15:45" ++ ":" ++ "01"), none, none, none⟩
    (by decide) rfl

/-- C4: a run that reaches the record phase (config present, nonempty
target list, successful fetch) in which no record is selected issues
exactly one summary call and zero per-record calls, whatever the cause —
empty batch, no code match, or no record past the threshold. -/
theorem zero_eligible_one_summary (sheet_id webhook_url : Option String)
    (sheetOutcome : Option (List String)) (now : DT) (httpOutcome : HttpOutcome)
    (ok : Nat → Bool) (results : List Doc)
    (h1 : truthy sheet_id = true) (h2 : truthy webhook_url = true)
    (h3 : ¬(get_target_codes sheetOutcome = []))
    (h4 : fetch_edinet_documents httpOutcome = some results)
    (h5 : results.filter (selectDoc now (get_target_codes sheetOutcome)) = []) :
    check_edinet_and_notify sheet_id webhook_url sheetOutcome now httpOutcome ok =
      ⟨200, [Call.summary (summaryText now (get_target_codes sheetOutcome))]⟩ := by
  unfold check_edinet_and_notify
  rw [if_neg (by rw [h1, h2]; decide)]
  dsimp only
  rw [if_neg h3, h4]
  dsimp only
  unfold runCalls
  rw [loopDocs_of_filter_nil now (get_target_codes sheetOutcome) ok results 0 0 h5]
  simp

/-- C4 witness: the spec's scenario of a night run over an empty batch —
zero selections, one summary call. -/
theorem zero_eligible_one_summary_witness :
    check_edinet_and_notify (some "sheet-id") (some "hook-url") (some ["E001"])
      ⟨2025, 10, 12, 17, 0⟩ (HttpOutcome.response 200 (some (some [])))
      (fun _ => true) =
      ⟨200, [Call.summary (summaryText ⟨2025, 10, 12, 17, 0⟩
        (get_target_codes (some ["E001"])))]⟩ :=
  zero_eligible_one_summary (some "sheet-id") (some "hook-url") (some ["E001"])
    ⟨2025, 10, 12, 17, 0⟩ (HttpOutcome.response 200 (some (some [])))
    (fun _ => true) [] (by decide) (by decide) (by decide) (by decide) rfl

/-- C5 counterexample: a 2xx response whose status is 201 — neither a
network-level failure nor a non-2xx status — is nevertheless reported as
a fetch failure, because the source tests `status_code != 200`, not
"non-2xx". -/
theorem fetch_2xx_not_200_failure_cex :
    fetch_edinet_documents (HttpOutcome.response 201 (some (some []))) = none ∧
    200 ≤ 201 ∧ 201 < 300 := by decide

/-- C5 amended: the fetch fails exactly on a network-level error, a status
other than 200, or a body that fails JSON decoding; a 200 response with an
absent, null, or empty `results` field is a valid empty list; and whenever
the fetch fails the run returns status 500 with zero notification calls. -/
theorem fetch_failure_characterization (o : HttpOutcome) :
    (fetch_edinet_documents o = none ↔
      o = HttpOutcome.networkError ∨
      (∃ st b, o = HttpOutcome.response st b ∧ st ≠ 200) ∨
      (∃ st, o = HttpOutcome.response st none)) ∧
    (∀ l, fetch_edinet_documents (HttpOutcome.response 200 (some (some l))) = some l) ∧
    (fetch_edinet_documents (HttpOutcome.response 200 (some none)) = some []) ∧
    (∀ sid wu so now ok, fetch_edinet_documents o = none →
      check_edinet_and_notify sid wu so now o ok = ⟨500, []⟩) := by
  refine ⟨?_, fun l => rfl, rfl, ?_⟩
  · cases o with
    | networkError => simp [fetch_edinet_documents]
    | response st b =>
      by_cases hst : st = 200
      · subst hst
        cases b with
        | none => simp [fetch_edinet_documents]
        | some ob =>
          cases ob with
          | none => simp [fetch_edinet_documents]
          | some l => simp [fetch_edinet_documents]
      · simp only [fetch_edinet_documents, if_pos (by simpa using hst)]
        constructor
        · intro _
          exact Or.inr (Or.inl ⟨st, b, rfl, hst⟩)
        · intro _
          trivial
  · intro sid wu so now ok hf
    unfold check_edinet_and_notify
    by_cases hcfg : (!(truthy sid && truthy wu)) = true
    · rw [if_pos hcfg]
    · rw [if_neg hcfg]
      dsimp only
      by_cases hcodes : get_target_codes so = []
      · rw [if_pos hcodes]
      · rw [if_neg hcodes, hf]

/-- C5 witness: the spec's scenario — the fetch returns a non-success
status, the run reports failure and issues zero notification calls. -/
theorem fetch_failure_characterization_witness :
    check_edinet_and_notify (some "sheet-id") (some "hook-url") (some ["E001"])
      ⟨2025, 10, 12, 17, 0⟩ (HttpOutcome.response 500 (some (some [])))
      (fun _ => true) = ⟨500, []⟩ :=
  (fetch_failure_characterization (HttpOutcome.response 500 (some (some [])))).2.2.2
    (some "sheet-id") (some "hook-url") (some ["E001"]) ⟨2025, 10, 12, 17, 0⟩
    (fun _ => true) (by decide)

/-- C9: the summary is sent exactly when `notification_count` — which
counts successful webhook POSTs, not selected records — ends at zero; so
in a run with selected records whose per-record POSTs all fail, the
per-record calls are all issued AND the summary is issued too. -/
theorem summary_iff_zero_successes (now : DT) (targets : List String)
    (ok : Nat → Bool) (results : List Doc) :
    (Call.summary (summaryText now targets) ∈ runCalls now targets ok results ↔
      (loopDocs now targets ok results 0 0).2 = 0) ∧
    ((∀ i, ok i = false) → ¬(results.filter (selectDoc now targets) = []) →
      runCalls now targets ok results =
        recordCallList now targets results ++
          [Call.summary (summaryText now targets)] ∧
      ¬(recordCallList now targets results = [])) := by
  constructor
  · unfold runCalls
    dsimp only
    rw [loopDocs_fst]
    constructor
    · intro hmem
      rcases List.mem_append.mp hmem with hmem | hmem
      · exfalso
        rcases List.mem_map.mp hmem with ⟨d, _, hd⟩
        exact Call.noConfusion hd
      · by_cases hz : (loopDocs now targets ok results 0 0).2 = 0
        · exact hz
        · rw [if_neg hz] at hmem
          exact absurd hmem (by simp)
    · intro hz
      rw [if_pos hz]
      exact List.mem_append.mpr (Or.inr (by simp))
  · intro hok hne
    have hcount := loopDocs_snd_allfalse now targets ok hok results 0 0
    constructor
    · unfold runCalls
      dsimp only
      rw [loopDocs_fst, hcount]
      simp
    · intro hx
      apply hne
      have hlen := congrArg List.length hx
      simp only [recordCallList, List.length_map, List.length_nil] at hlen
      exact List.eq_nil_of_length_eq_zero hlen

/-- C9 witness: a daytime run with one matched record and a webhook that
always fails: the per-record call is issued and the summary follows. -/
theorem summary_iff_zero_successes_witness :
    runCalls ⟨2025, 10, 12, 14, 0⟩ ["E001"] (fun _ => false)
      [⟨some "E001", some "2025-10-12 13:00", none, none, none⟩] =
      recordCallList ⟨2025, 10, 12, 14, 0⟩ ["E001"]
        [⟨some "E001", some "2025-10-12 13:00", none, none, none⟩] ++
        [Call.summary (summaryText ⟨2025, 10, 12, 14, 0⟩ ["E001"])] ∧
    ¬(recordCallList ⟨2025, 10, 12, 14, 0⟩ ["E001"]
      [⟨some "E001", some "2025-10-12 13:00", none, none, none⟩] = []) :=
  (summary_iff_zero_successes ⟨2025, 10, 12, 14, 0⟩ ["E001"] (fun _ => false)
    [⟨some "E001", some "2025-10-12 13:00", none, none, none⟩]).2
    (fun _ => rfl) (by decide)

/-- C10: absent fields never abort processing — a record with no issuer
code or no timestamp is silently skipped and the loop continues, while a
selected record missing the description, filer name, and document id is
still notified, with the default placeholders substituted in the message
text (and an empty id in the download link). -/
theorem missing_fields_are_safe (now : DT) (targets : List String) (doc : Doc) :
    (doc.edinetCode = none → selectDoc now targets doc = false ∧
      ∀ ok ds idx succ, loopDocs now targets ok (doc :: ds) idx succ =
        loopDocs now targets ok ds idx succ) ∧
    (doc.submitDateTime = none → selectDoc now targets doc = false ∧
      ∀ ok ds idx succ, loopDocs now targets ok (doc :: ds) idx succ =
        loopDocs now targets ok ds idx succ) ∧
    (∀ c s dt, doc.edinetCode = some c → targets.contains c = true →
      doc.submitDateTime = some s → parseSubmit s = some dt →
      (isNightRun now && DT.leb dt (threshold now)) = false →
      doc.docDescription = none → doc.filerName = none → doc.docID = none →
      selectDoc now targets doc = true ∧
      recordMsg doc = "📢 *開示情報 (" ++ s ++
        ")*\n*企業名*: 不明な企業\n*書類*: 不明な書類\n*PDF*: https://disclosure.edinet-fsa.go.jp/api/v2/documents/?type=2") := by
  refine ⟨fun hce => ?_, fun hts => ?_, fun c s dt hc hm hs hp hflag hd hf hid => ?_⟩
  · have hsel : selectDoc now targets doc = false := by simp [selectDoc, hce]
    exact ⟨hsel, fun ok ds idx succ =>
      loopDocs_cons_skip now targets ok doc ds idx succ hsel⟩
  · have hsel := selectDoc_false_of_bad_ts now targets doc (Or.inl hts)
    exact ⟨hsel, fun ok ds idx succ =>
      loopDocs_cons_skip now targets ok doc ds idx succ hsel⟩
  · constructor
    · rw [selectDoc_eval now targets doc c s dt hc hm hs hp, hflag]
      rfl
    · unfold recordMsg
      rw [hs, hd, hf, hid]
      apply String.ext
      simp only [Option.getD_some, Option.getD_none, String.data_append,
        List.append_assoc]
      congr 1

/-- C10 witness: a record with no code and a record with no timestamp are
skipped; a matched, time-eligible record with none of the optional fields
is selected and its message carries the placeholder values. -/
theorem missing_fields_are_safe_witness :
    selectDoc ⟨2025, 10, 12, 14, 0⟩ ["E001"]
      ⟨none, some "2025-10-12 13:00", none, none, none⟩ = false ∧
    selectDoc ⟨2025, 10, 12, 14, 0⟩ ["E001"]
      ⟨some "E001", none, none, none, none⟩ = false ∧
    selectDoc ⟨2025, 10, 12, 14, 0⟩ ["E001"]
      ⟨some "E001", some "2025-10-12 13:00", none, none, none⟩ = true ∧
    recordMsg ⟨some "E001", some "2025-10-12 13:00", none, none, none⟩ =
      "📢 *開示情報 (" ++ "2025-10-12 13:00" ++
        ")*\n*企業名*: 不明な企業\n*書類*: 不明な書類\n*PDF*: https://disclosure.edinet-fsa.go.jp/api/v2/documents/?type=2" := by
  refine ⟨?_, ?_, ?_, ?_⟩
  · exact ((missing_fields_are_safe ⟨2025, 10, 12, 14, 0⟩ ["E001"]
      ⟨none, some "2025-10-12 13:00", none, none, none⟩).1 rfl).1
  · exact ((missing_fields_are_safe ⟨2025, 10, 12, 14, 0⟩ ["E001"]
      ⟨some "E001", none, none, none, none⟩).2.1 rfl).1
  · exact ((missing_fields_are_safe ⟨2025, 10, 12, 14, 0⟩ ["E001"]
      ⟨some "E001", some "2025-10-12 13:00", none, none, none⟩).2.2
      "E001" "2025-10-12 13:00" ⟨2025, 10, 12, 13, 0⟩
      rfl (by decide) rfl (by decide) (by decide) rfl rfl rfl).1
  · exact ((missing_fields_are_safe ⟨2025, 10, 12, 14, 0⟩ ["E001"]
      ⟨some "E001", some "2025-10-12 13:00", none, none, none⟩).2.2
      "E001" "2025-10-12 13:00" ⟨2025, 10, 12, 13, 0⟩
      rfl (by decide) rfl (by decide) (by decide) rfl rfl rfl).2
